import Mathlib

/-!
Verification of the Centsible budgeting application's data-access layer
(src/contexts/FirestoreContext.js) and registration handler (src/pages/Login.js).

The JavaScript code is shallowly embedded as pure Lean functions:
* a Firestore user document becomes a `UserDoc` record; the store becomes an
  association list from user id to document;
* entity records (income / expense / goal entries) are JavaScript objects,
  modelled as insertion-ordered association lists of string keys to values;
* asynchronous calls that may reject become `Except Err` computations; the
  `try / catch (log; throw e)` wrapper of every data-access function is the
  `catchRethrow` combinator;
* a `Backend` value says which (if any) of the three Firestore primitives
  used by the code (getDoc, setDoc, updateDoc) fails, and with which error;
* `Date.now().toString()` becomes `Nat.repr now` for an explicit wall-clock
  parameter `now`; numeric field values are modelled as integers (no claim
  under consideration exercises fractional arithmetic or numeric edge cases).
-/

namespace Centsible

/-- A JavaScript primitive value as stored in entity records. -/
inductive Val where
  | str : String → Val
  | num : Int → Val
  | bool : Bool → Val
deriving DecidableEq, Repr

/-- A JavaScript object: an insertion-ordered association list of fields. -/
abbrev Obj := List (String × Val)

/-- Field lookup (first occurrence; JS objects have unique keys). -/
def getField : Obj → String → Option Val
  | [], _ => none
  | (k, v) :: rest, key => if k = key then some v else getField rest key

/-- JS property assignment `o[k] = v`: overwrite in place if the key exists
(preserving insertion order), otherwise append at the end. -/
def setField (o : Obj) (k : String) (v : Val) : Obj :=
  if o.any (fun kv => kv.1 == k) then
    o.map (fun kv => if kv.1 = k then (k, v) else kv)
  else
    o ++ [(k, v)]

/-- JS object spread: fields of `b` written over `a` in order. -/
def mergeObj (a b : Obj) : Obj :=
  b.foldl (fun acc kv => setField acc kv.1 kv.2) a

/-- The strict comparison `element.id === targetId` used by update/delete. -/
def idMatches (o : Obj) (target : String) : Bool :=
  getField o "id" == some (Val.str target)

/-- The per-user Firestore document.  `createdSet` records whether the
`created: serverTimestamp()` field is present (its value is opaque).
`profile` holds the remaining scalar fields written by `updateUser`.
Each entity list distinguishes an absent field (`none`) from a present
empty array (`some []`), exactly as Firestore does. -/
structure UserDoc where
  email : Option Val := none
  createdSet : Bool := false
  profile : List (String × Val) := []
  income : Option (List Obj) := none
  expenses : Option (List Obj) := none
  goals : Option (List Obj) := none
deriving DecidableEq, Repr

def emptyDoc : UserDoc := {}

/-- The `users` collection: user id to document. -/
abbrev Store := List (String × UserDoc)

def lookupStore : Store → String → Option UserDoc
  | [], _ => none
  | (k, d) :: rest, key => if k = key then some d else lookupStore rest key

def storeSet : Store → String → UserDoc → Store
  | [], key, d => [(key, d)]
  | (k, e) :: rest, key, d =>
      if k = key then (k, d) :: rest else (k, e) :: storeSet rest key d

abbrev Err := String

instance {ε α : Type} [DecidableEq ε] [DecidableEq α] : DecidableEq (Except ε α) := fun x y =>
  match x, y with
  | Except.ok a, Except.ok b =>
      if h : a = b then isTrue (by rw [h])
      else isFalse (by intro hh; cases hh; exact h rfl)
  | Except.error a, Except.error b =>
      if h : a = b then isTrue (by rw [h])
      else isFalse (by intro hh; cases hh; exact h rfl)
  | Except.ok _, Except.error _ => isFalse (by intro hh; cases hh)
  | Except.error _, Except.ok _ => isFalse (by intro hh; cases hh)

/-- Which Firestore primitive (if any) rejects, and with which error. -/
structure Backend where
  getDocErr : Option Err
  setDocErr : Option Err
  updateDocErr : Option Err
deriving DecidableEq, Repr

def noErr : Backend := ⟨none, none, none⟩
def getFails (e : Err) : Backend := ⟨some e, none, none⟩
def setFails (e : Err) : Backend := ⟨none, some e, none⟩
def updateFails (e : Err) : Backend := ⟨none, none, some e⟩

/-- The three entity-list fields of a user document. -/
inductive ListField where
  | income : ListField
  | expenses : ListField
  | goals : ListField
deriving DecidableEq, Repr

def UserDoc.getList (d : UserDoc) : ListField → Option (List Obj)
  | .income => d.income
  | .expenses => d.expenses
  | .goals => d.goals

def UserDoc.setList (d : UserDoc) : ListField → List Obj → UserDoc
  | .income, l => { d with income := some l }
  | .expenses, l => { d with expenses := some l }
  | .goals, l => { d with goals := some l }

/-- Firestore `arrayUnion`: append the element unless an equal element is
already present. -/
def arrayUnion (arr : List Obj) (x : Obj) : List Obj :=
  if x ∈ arr then arr else arr ++ [x]

/-- `getDoc(doc(db, "users", id))`. -/
def fsGetDoc (b : Backend) (st : Store) (id : String) : Except Err (Option UserDoc) :=
  match b.getDocErr with
  | some e => Except.error e
  | none => Except.ok (lookupStore st id)

/-- `setDoc(docRef, data)` without merge: replace the whole document. -/
def fsSetReplace (b : Backend) (st : Store) (id : String) (d : UserDoc) :
    Except Err Store :=
  match b.setDocErr with
  | some e => Except.error e
  | none => Except.ok (storeSet st id d)

/-- `setDoc(docRef, data, merge true)` where `data` carries profile fields:
merge them over the existing document (creating it if absent). -/
def fsSetMergeProfile (b : Backend) (st : Store) (id : String)
    (p : List (String × Val)) : Except Err Store :=
  match b.setDocErr with
  | some e => Except.error e
  | none =>
      let d := (lookupStore st id).getD emptyDoc
      Except.ok (storeSet st id { d with profile := mergeObj d.profile p })

/-- `setDoc(docRef, data, merge true)` where `data` maps one list field to
`arrayUnion(x)`: union into the existing array (absent field treated as
empty; document created if absent; all other fields untouched). -/
def fsSetMergeList (b : Backend) (st : Store) (id : String) (f : ListField)
    (x : Obj) : Except Err Store :=
  match b.setDocErr with
  | some e => Except.error e
  | none =>
      let d := (lookupStore st id).getD emptyDoc
      let arr := (d.getList f).getD []
      Except.ok (storeSet st id (d.setList f (arrayUnion arr x)))

/-- `updateDoc(docRef, data)` where `data` maps one list field to a new
array: overwrite that field, leaving all others; rejects when the document
does not exist (unreachable in the code below, which guards with
`docSnap.exists()`). -/
def fsUpdateList (b : Backend) (st : Store) (id : String) (f : ListField)
    (l : List Obj) : Except Err Store :=
  match b.updateDocErr with
  | some e => Except.error e
  | none =>
      match lookupStore st id with
      | some d => Except.ok (storeSet st id (d.setList f l))
      | none => Except.error "not-found"

/-- The `try ... catch (e) (console.error ...; throw e)` wrapper shared by
every data-access function: the logging has no observable effect in the
model and the exception is re-thrown unchanged. -/
def catchRethrow {α : Type} (x : Except Err α) : Except Err α :=
  match x with
  | Except.ok a => Except.ok a
  | Except.error e => Except.error e

/-- `createUser(id, email)`: non-merge setDoc of an email and a
server-timestamp `created` field. -/
def createUser (b : Backend) (st : Store) (id email : String) :
    Except Err Store :=
  catchRethrow (fsSetReplace b st id
    { email := some (Val.str email), createdSet := true })

/-- `updateUser(id, userData)`: merge setDoc of profile fields. -/
def updateUser (b : Backend) (st : Store) (id : String)
    (userData : List (String × Val)) : Except Err Store :=
  catchRethrow (fsSetMergeProfile b st id userData)

/-- `getUserData(id)`: the document's data, or null when absent. -/
def getUserData (b : Backend) (st : Store) (id : String) :
    Except Err (Option UserDoc) :=
  catchRethrow (fsGetDoc b st id)

/-- The `num` argument of the retrieval functions: the string "all" or a
(nonnegative) element count, the only shapes the application passes. -/
inductive NumArg where
  | all : NumArg
  | count : Nat → NumArg
deriving DecidableEq, Repr

/-- `num === "all" ? arr : arr.slice(0, num)`. -/
def sliceNum (arr : List Obj) : NumArg → List Obj
  | .all => arr
  | .count n => arr.take n

/-- The mutation `incomeData.id = Date.now().toString();
incomeData.active = true;` performed by `addIncome` on its argument. -/
def extendIncome (incomeData : Obj) (now : Nat) : Obj :=
  setField (setField incomeData "id" (Val.str (Nat.repr now))) "active"
    (Val.bool true)

/-- `addIncome(id, incomeData)` at wall-clock time `now`. -/
def addIncome (b : Backend) (st : Store) (id : String) (incomeData : Obj)
    (now : Nat) : Except Err Store :=
  catchRethrow
    (fsSetMergeList b st id ListField.income (extendIncome incomeData now))

/-- `getIncome(id, num)`: null when the document is absent, the income
field is absent, or the income array is empty; otherwise the (sliced)
array. -/
def getIncome (b : Backend) (st : Store) (id : String) (num : NumArg) :
    Except Err (Option (List Obj)) :=
  catchRethrow (do
    let docOpt ← fsGetDoc b st id
    match docOpt with
    | some data =>
        match data.income with
        | none => pure none
        | some arr =>
            if arr.length = 0 then pure none
            else pure (some (sliceNum arr num))
    | none => pure none)

/-- `updateIncome(id, incomeId, updatedData)`: read the document, replace
every element whose id matches by the spread-merge of the patch over it,
write the whole array back; silently no-op when the document is absent. -/
def updateIncome (b : Backend) (st : Store) (id incomeId : String)
    (updatedData : Obj) : Except Err Store :=
  catchRethrow (do
    let docOpt ← fsGetDoc b st id
    match docOpt with
    | some data =>
        let incomeArr := data.income.getD []
        let updatedIncome := incomeArr.map (fun income =>
          if idMatches income incomeId then mergeObj income updatedData
          else income)
        fsUpdateList b st id ListField.income updatedIncome
    | none => pure st)

/-- `deleteIncome(id, incomeId)`: read, filter out matching ids, write
back; silently no-op when the document is absent. -/
def deleteIncome (b : Backend) (st : Store) (id incomeId : String) :
    Except Err Store :=
  catchRethrow (do
    let docOpt ← fsGetDoc b st id
    match docOpt with
    | some data =>
        let incomeArr := data.income.getD []
        let updatedIncome :=
          incomeArr.filter (fun income => !(idMatches income incomeId))
        fsUpdateList b st id ListField.income updatedIncome
    | none => pure st)

/-- The mutation `expenseData.id = Date.now().toString();` performed by
`addExpenses` on its argument (no `active` field, unlike income). -/
def extendExpense (expenseData : Obj) (now : Nat) : Obj :=
  setField expenseData "id" (Val.str (Nat.repr now))

/-- `addExpenses(id, expenseData)` at wall-clock time `now`. -/
def addExpenses (b : Backend) (st : Store) (id : String) (expenseData : Obj)
    (now : Nat) : Except Err Store :=
  catchRethrow
    (fsSetMergeList b st id ListField.expenses (extendExpense expenseData now))

/-- The filter predicate
`expense.category && expense.category.toLowerCase() === category.toLowerCase()`.
Category values are strings at every write site; a non-string truthy value
would make the source raise a TypeError and is not modelled. -/
def categoryTest (expense : Obj) (category : String) : Bool :=
  match getField expense "category" with
  | some (Val.str c) => !(c == "") && (c.toLower == category.toLower)
  | _ => false

/-- `getExpenses(id, num, category)`: null only when the document is
absent; otherwise the expense array (absent field read as empty),
category-filtered when `category` is non-empty, then sliced. -/
def getExpenses (b : Backend) (st : Store) (id : String) (num : NumArg)
    (category : String) : Except Err (Option (List Obj)) :=
  catchRethrow (do
    let docOpt ← fsGetDoc b st id
    match docOpt with
    | some data =>
        let expensesArr := data.expenses.getD []
        let filtered :=
          if category == "" then expensesArr
          else expensesArr.filter (fun expense => categoryTest expense category)
        pure (some (sliceNum filtered num))
    | none => pure none)

/-- `updateExpense(id, expenseId, updatedData)`. -/
def updateExpense (b : Backend) (st : Store) (id expenseId : String)
    (updatedData : Obj) : Except Err Store :=
  catchRethrow (do
    let docOpt ← fsGetDoc b st id
    match docOpt with
    | some data =>
        let expensesArr := data.expenses.getD []
        let updatedExpenses := expensesArr.map (fun expense =>
          if idMatches expense expenseId then mergeObj expense updatedData
          else expense)
        fsUpdateList b st id ListField.expenses updatedExpenses
    | none => pure st)

/-- `deleteExpense(id, expenseId)`. -/
def deleteExpense (b : Backend) (st : Store) (id expenseId : String) :
    Except Err Store :=
  catchRethrow (do
    let docOpt ← fsGetDoc b st id
    match docOpt with
    | some data =>
        let expensesArr := data.expenses.getD []
        let updatedExpenses :=
          expensesArr.filter (fun expense => !(idMatches expense expenseId))
        fsUpdateList b st id ListField.expenses updatedExpenses
    | none => pure st)

/-- The mutation `userGoal.id = Date.now().toString();` performed by
`addUserGoal` on its argument. -/
def extendGoal (userGoal : Obj) (now : Nat) : Obj :=
  setField userGoal "id" (Val.str (Nat.repr now))

/-- `addUserGoal(id, userGoal)` at wall-clock time `now`. -/
def addUserGoal (b : Backend) (st : Store) (id : String) (userGoal : Obj)
    (now : Nat) : Except Err Store :=
  catchRethrow
    (fsSetMergeList b st id ListField.goals (extendGoal userGoal now))

/-- `getUserGoals(id, num)`: null only when the document is absent;
otherwise the (sliced) goals array, absent field read as empty. -/
def getUserGoals (b : Backend) (st : Store) (id : String) (num : NumArg) :
    Except Err (Option (List Obj)) :=
  catchRethrow (do
    let docOpt ← fsGetDoc b st id
    match docOpt with
    | some data =>
        let goalsArr := data.goals.getD []
        pure (some (sliceNum goalsArr num))
    | none => pure none)

/-- `updateUserGoal(id, goalId, updatedData)`. -/
def updateUserGoal (b : Backend) (st : Store) (id goalId : String)
    (updatedData : Obj) : Except Err Store :=
  catchRethrow (do
    let docOpt ← fsGetDoc b st id
    match docOpt with
    | some data =>
        let goalsArr := data.goals.getD []
        let updatedGoals := goalsArr.map (fun goal =>
          if idMatches goal goalId then mergeObj goal updatedData else goal)
        fsUpdateList b st id ListField.goals updatedGoals
    | none => pure st)

/-- `deleteUserGoal(id, goalId)`. -/
def deleteUserGoal (b : Backend) (st : Store) (id goalId : String) :
    Except Err Store :=
  catchRethrow (do
    let docOpt ← fsGetDoc b st id
    match docOpt with
    | some data =>
        let goalsArr := data.goals.getD []
        let updatedGoals :=
          goalsArr.filter (fun goal => !(idMatches goal goalId))
        fsUpdateList b st id ListField.goals updatedGoals
    | none => pure st)

/-! ## Registration handler (src/pages/Login.js) -/

/-- The credential returned by the auth service on a successful signup:
`userCredentials.user.uid` and `userCredentials.user.email`. -/
structure Cred where
  uid : String
  email : String
deriving DecidableEq, Repr

inductive Severity where
  | error : Severity
  | success : Severity
  | info : Severity
deriving DecidableEq, Repr

/-- The snackbar state set by the handler. -/
structure Notice where
  isOpen : Bool
  message : String
  severity : Severity
deriving DecidableEq, Repr

/-- `/[A-Z]/.test(password)`. -/
def hasUpper (s : String) : Bool :=
  s.toList.any (fun c => decide ('A' ≤ c) && decide (c ≤ 'Z'))

/-- `/\d/.test(password)`. -/
def hasDigit (s : String) : Bool :=
  s.toList.any (fun c => decide ('0' ≤ c) && decide (c ≤ '9'))

/-- The guard
`password.length < 8 or no uppercase letter or no digit` of `handleRegister`. -/
def passwordPolicyViolated (password : String) : Bool :=
  decide (password.length < 8) || !(hasUpper password) || !(hasDigit password)

/-- Everything observable about one run of `handleRegister`. -/
structure RegisterResult where
  store : Store
  signupCalled : Bool
  createUserCalls : List (String × String)
  notice : Notice
  navigatedToDashboard : Bool
deriving DecidableEq, Repr

/-- `handleRegister` of Login.js: local password-policy and confirmation
checks, then `signup` (whose outcome is the `signupResult` argument), then
`createUser`; any thrown error becomes an error notice. -/
def handleRegister (b : Backend) (st : Store) (password confirmPassword : String)
    (signupResult : Except Err Cred) : RegisterResult :=
  if passwordPolicyViolated password then
    { store := st, signupCalled := false, createUserCalls := [],
      notice := ⟨true,
        "Password must be at least 8 characters long, include an uppercase letter, and a number.",
        Severity.error⟩,
      navigatedToDashboard := false }
  else if password ≠ confirmPassword then
    { store := st, signupCalled := false, createUserCalls := [],
      notice := ⟨true, "Passwords do not match.", Severity.error⟩,
      navigatedToDashboard := false }
  else
    match signupResult with
    | Except.error e =>
        { store := st, signupCalled := true, createUserCalls := [],
          notice := ⟨true, "Registration failed: " ++ e, Severity.error⟩,
          navigatedToDashboard := false }
    | Except.ok cred =>
        match createUser b st cred.uid cred.email with
        | Except.error e =>
            { store := st, signupCalled := true,
              createUserCalls := [(cred.uid, cred.email)],
              notice := ⟨true, "Registration failed: " ++ e, Severity.error⟩,
              navigatedToDashboard := false }
        | Except.ok st2 =>
            { store := st2, signupCalled := true,
              createUserCalls := [(cred.uid, cred.email)],
              notice := ⟨true, "Account created successfully.", Severity.success⟩,
              navigatedToDashboard := true }

/-! ## Decimal representation: `Nat.repr` is injective and never empty

`Date.now().toString()` is embedded as `Nat.repr`.  The lemmas below prove
the decode roundtrip for the core digit printer, from which injectivity
and nonemptiness of the produced identifier strings follow. -/

/-- Decimal value of a digit character (digits only; by construction
`Nat.toDigitsCore 10` emits only `0`-`9`). -/
def decDigit (c : Char) : Nat :=
  if c = '1' then 1 else if c = '2' then 2 else if c = '3' then 3 else
  if c = '4' then 4 else if c = '5' then 5 else if c = '6' then 6 else
  if c = '7' then 7 else if c = '8' then 8 else if c = '9' then 9 else 0

/-- Decimal value of a digit string, most significant first. -/
def decValue (l : List Char) : Nat :=
  l.foldl (fun a c => a * 10 + decDigit c) 0

theorem decDigit_digitChar_fin : ∀ m : Fin 10, decDigit (Nat.digitChar m.val) = m.val := by
  decide

theorem decDigit_digitChar (m : Nat) (h : m < 10) :
    decDigit (Nat.digitChar m) = m :=
  decDigit_digitChar_fin ⟨m, h⟩

theorem toDigitsCore_append10 :
    ∀ (fuel n : Nat) (ds : List Char),
      Nat.toDigitsCore 10 fuel n ds = Nat.toDigitsCore 10 fuel n [] ++ ds := by
  intro fuel
  induction fuel with
  | zero => intro n ds; simp [Nat.toDigitsCore]
  | succ f ih =>
      intro n ds
      simp only [Nat.toDigitsCore]
      by_cases h : n / 10 = 0
      · simp [h]
      · simp only [h, if_neg]
        rw [ih (n / 10) [Nat.digitChar (n % 10)],
          ih (n / 10) (Nat.digitChar (n % 10) :: ds)]
        simp

theorem foldl_dec_append (l : List Char) (c : Char) (a : Nat) :
    List.foldl (fun a c => a * 10 + decDigit c) a (l ++ [c]) =
      (List.foldl (fun a c => a * 10 + decDigit c) a l) * 10 + decDigit c := by
  simp [List.foldl_append]

theorem toDigitsCore_decValue :
    ∀ (fuel n : Nat), n < fuel → decValue (Nat.toDigitsCore 10 fuel n []) = n := by
  intro fuel
  induction fuel with
  | zero => intro n h; omega
  | succ f ih =>
      intro n h
      simp only [Nat.toDigitsCore]
      by_cases h10 : n / 10 = 0
      · have hlt : n % 10 < 10 := Nat.mod_lt _ (by omega)
        simp [h10, decValue, decDigit_digitChar _ hlt]
        omega
      · rw [if_neg h10, toDigitsCore_append10]
        have hrec : n / 10 < f := by
          have h1 : 0 < n := by
            rcases Nat.eq_zero_or_pos n with h0 | h0
            · exact absurd (by simp [h0]) h10
            · exact h0
          have h2 : n / 10 < n := Nat.div_lt_self h1 (by omega)
          omega
        have hmod : n % 10 < 10 := Nat.mod_lt _ (by omega)
        simp only [decValue] at ih ⊢
        rw [foldl_dec_append, ih (n / 10) hrec, decDigit_digitChar _ hmod]
        omega

theorem decValue_toDigits (n : Nat) : decValue (Nat.toDigits 10 n) = n := by
  simp only [Nat.toDigits]
  exact toDigitsCore_decValue (n + 1) n (Nat.lt_succ_self n)

theorem natRepr_injective : Function.Injective Nat.repr := by
  intro m n h
  have hdata : Nat.toDigits 10 m = Nat.toDigits 10 n := by
    have := congrArg String.data h
    simpa [Nat.repr, List.asString] using this
  have := congrArg decValue hdata
  simpa [decValue_toDigits] using this

theorem toDigitsCore_ne_nil (f n : Nat) :
    Nat.toDigitsCore 10 (f + 1) n [] ≠ [] := by
  simp only [Nat.toDigitsCore]
  by_cases h : n / 10 = 0
  · simp [h]
  · simp only [h, if_neg]
    rw [toDigitsCore_append10]
    simp

theorem natRepr_ne_empty (n : Nat) : Nat.repr n ≠ "" := by
  intro h
  have hdata := congrArg String.data h
  simp only [Nat.repr, List.asString] at hdata
  exact toDigitsCore_ne_nil n n (by simpa [Nat.toDigits] using hdata)

/-! ## Structural lemmas about objects, documents and the store -/

theorem getField_append (o1 o2 : Obj) (key : String) :
    getField (o1 ++ o2) key =
      match getField o1 key with
      | some w => some w
      | none => getField o2 key := by
  induction o1 with
  | nil => simp [getField]
  | cons kv rest ih =>
      simp only [List.cons_append, getField]
      by_cases h : kv.1 = key
      · simp [h]
      · rw [if_neg h, if_neg h]
        exact ih

theorem getField_map_set_same (o : Obj) (k : String) (v : Val)
    (h : o.any (fun kv => kv.1 == k) = true) :
    getField (o.map (fun kv => if kv.1 = k then (k, v) else kv)) k = some v := by
  induction o with
  | nil => simp at h
  | cons kv rest ih =>
      simp only [List.any_cons, Bool.or_eq_true, beq_iff_eq] at h
      simp only [List.map_cons]
      by_cases hk : kv.1 = k
      · rw [if_pos hk]; simp [getField]
      · rw [if_neg hk]
        simp only [getField]
        rw [if_neg hk]
        exact ih (by rcases h with h | h; exact absurd h hk; exact h)

theorem getField_map_set_ne (o : Obj) (k k2 : String) (v : Val) (h : k2 ≠ k) :
    getField (o.map (fun kv => if kv.1 = k then (k, v) else kv)) k2 =
      getField o k2 := by
  induction o with
  | nil => simp
  | cons kv rest ih =>
      simp only [List.map_cons]
      by_cases hk : kv.1 = k
      · rw [if_pos hk]
        simp only [getField]
        rw [if_neg (Ne.symm h), if_neg (by rw [hk]; exact fun hh => h hh.symm)]
        exact ih
      · rw [if_neg hk]
        simp only [getField]
        by_cases hk2 : kv.1 = k2
        · simp [hk2]
        · rw [if_neg hk2, if_neg hk2]
          exact ih

theorem getField_eq_none_of_not_any (o : Obj) (k : String)
    (h : o.any (fun kv => kv.1 == k) = false) : getField o k = none := by
  induction o with
  | nil => simp [getField]
  | cons kv rest ih =>
      simp only [List.any_cons, Bool.or_eq_false_iff, beq_eq_false_iff_ne] at h
      simp only [getField]
      rw [if_neg h.1]
      exact ih (by simp [h.2])

theorem getField_setField_same (o : Obj) (k : String) (v : Val) :
    getField (setField o k v) k = some v := by
  simp only [setField]
  by_cases h : o.any (fun kv => kv.1 == k)
  · rw [if_pos h]
    exact getField_map_set_same o k v h
  · rw [if_neg h, getField_append,
      getField_eq_none_of_not_any o k (Bool.eq_false_iff.mpr h)]
    simp [getField]

theorem getField_setField_ne (o : Obj) (k k2 : String) (v : Val) (h : k2 ≠ k) :
    getField (setField o k v) k2 = getField o k2 := by
  simp only [setField]
  by_cases hany : o.any (fun kv => kv.1 == k)
  · rw [if_pos hany]
    exact getField_map_set_ne o k k2 v h
  · rw [if_neg hany, getField_append]
    have hsingle : getField [(k, v)] k2 = none := by
      simp [getField, Ne.symm h]
    cases hlook : getField o k2 with
    | some w => simp
    | none => simp [hsingle]

theorem lookupStore_storeSet_same (st : Store) (k : String) (d : UserDoc) :
    lookupStore (storeSet st k d) k = some d := by
  induction st with
  | nil => simp [storeSet, lookupStore]
  | cons kv rest ih =>
      simp only [storeSet]
      by_cases h : kv.1 = k
      · rw [if_pos h]
        simp [lookupStore, h]
      · rw [if_neg h]
        simp only [lookupStore]
        rw [if_neg h]
        exact ih

theorem lookupStore_storeSet_ne (st : Store) (k k2 : String) (d : UserDoc)
    (h : k2 ≠ k) : lookupStore (storeSet st k d) k2 = lookupStore st k2 := by
  induction st with
  | nil => simp [storeSet, lookupStore, Ne.symm h]
  | cons kv rest ih =>
      simp only [storeSet]
      by_cases hk : kv.1 = k
      · rw [if_pos hk]
        simp only [lookupStore]
        rw [if_neg (by rw [hk]; exact fun hh => h hh.symm), if_neg (by rw [hk]; exact fun hh => h hh.symm)]
      · rw [if_neg hk]
        simp only [lookupStore]
        by_cases hk2 : kv.1 = k2
        · simp [hk2]
        · rw [if_neg hk2, if_neg hk2]
          exact ih

theorem getList_setList_same (d : UserDoc) (f : ListField) (l : List Obj) :
    (d.setList f l).getList f = some l := by
  cases f <;> simp [UserDoc.getList, UserDoc.setList]

theorem getList_setList_ne (d : UserDoc) (f f2 : ListField) (l : List Obj)
    (h : f2 ≠ f) : (d.setList f l).getList f2 = d.getList f2 := by
  cases f <;> cases f2 <;> simp_all [UserDoc.getList, UserDoc.setList]

theorem mem_arrayUnion (arr : List Obj) (x : Obj) : x ∈ arrayUnion arr x := by
  simp only [arrayUnion]
  by_cases h : x ∈ arr <;> simp [h]

theorem arrayUnion_of_not_mem (arr : List Obj) (x : Obj) (h : x ∉ arr) :
    arrayUnion arr x = arr ++ [x] := by
  simp [arrayUnion, h]

theorem map_update_no_match (l : List Obj) (tid : String) (patch : Obj)
    (h : ∀ x ∈ l, idMatches x tid = false) :
    l.map (fun x => if idMatches x tid then mergeObj x patch else x) = l := by
  induction l with
  | nil => simp
  | cons y rest ih =>
      have hy := h y (by simp)
      simp only [List.map_cons, hy, Bool.false_eq_true, if_false]
      rw [ih (fun x hx => h x (by simp [hx]))]

/-! ## Claim C1 -/

/-- C1 counterexample: for the income list the claim fails.  With a user
document whose income list holds exactly one element (id "5"), deleting
that element succeeds, but a subsequent `getIncome(id, "all")` returns
null (`none`), not a present empty list: `getIncome` maps an empty stored
array to null. -/
theorem C1_counterexample :
    deleteIncome noErr [("u", { income := some [[("id", Val.str "5")]] })] "u" "5" =
      Except.ok [("u", { income := some [] })] ∧
    getIncome noErr [("u", { income := some ([] : List Obj) })] "u" NumArg.all =
      Except.ok none ∧
    (Except.ok none : Except Err (Option (List Obj))) ≠
      Except.ok (some ([] : List Obj)) := by
  decide

/-- C1 (amended): deleting the sole element of the expenses or goals list
makes retrieval with limit "all" return a present empty list; for the
income list the same sequence instead makes retrieval return null, because
`getIncome` returns null whenever the stored income array is empty. -/
theorem C1_amended_delete_last (st : Store) (u i : String) (d : UserDoc)
    (x : Obj) (hd : lookupStore st u = some d) (hm : idMatches x i = true) :
    (d.income = some [x] →
      ∃ st2, deleteIncome noErr st u i = Except.ok st2 ∧
        getIncome noErr st2 u NumArg.all = Except.ok none) ∧
    (d.expenses = some [x] →
      ∃ st2, deleteExpense noErr st u i = Except.ok st2 ∧
        getExpenses noErr st2 u NumArg.all "" = Except.ok (some [])) ∧
    (d.goals = some [x] →
      ∃ st2, deleteUserGoal noErr st u i = Except.ok st2 ∧
        getUserGoals noErr st2 u NumArg.all = Except.ok (some [])) := by
  refine ⟨fun hx => ?_, fun hx => ?_, fun hx => ?_⟩
  · refine ⟨storeSet st u (d.setList ListField.income []), ?_, ?_⟩
    · simp [deleteIncome, catchRethrow, fsGetDoc, fsUpdateList, noErr, hd, hx,
        hm, UserDoc.setList, Bind.bind, Except.bind, Pure.pure, Except.pure]
    · simp [getIncome, catchRethrow, fsGetDoc, noErr, lookupStore_storeSet_same,
        UserDoc.setList, Bind.bind, Except.bind, Pure.pure, Except.pure]
  · refine ⟨storeSet st u (d.setList ListField.expenses []), ?_, ?_⟩
    · simp [deleteExpense, catchRethrow, fsGetDoc, fsUpdateList, noErr, hd, hx,
        hm, UserDoc.setList, Bind.bind, Except.bind, Pure.pure, Except.pure]
    · simp [getExpenses, catchRethrow, fsGetDoc, noErr, lookupStore_storeSet_same,
        UserDoc.setList, sliceNum, Bind.bind, Except.bind, Pure.pure, Except.pure]
  · refine ⟨storeSet st u (d.setList ListField.goals []), ?_, ?_⟩
    · simp [deleteUserGoal, catchRethrow, fsGetDoc, fsUpdateList, noErr, hd, hx,
        hm, UserDoc.setList, Bind.bind, Except.bind, Pure.pure, Except.pure]
    · simp [getUserGoals, catchRethrow, fsGetDoc, noErr, lookupStore_storeSet_same,
        UserDoc.setList, sliceNum, Bind.bind, Except.bind, Pure.pure, Except.pure]

/-- Witness for C1 (amended) at a concrete store: an expenses list with one
element, deleted, then retrieved as a present empty list. -/
theorem C1_amended_delete_last_witness :
    ∃ st2, deleteExpense noErr
        [("u", { expenses := some [[("id", Val.str "5")]] })] "u" "5" =
        Except.ok st2 ∧
      getExpenses noErr st2 "u" NumArg.all "" = Except.ok (some []) :=
  (C1_amended_delete_last
      [("u", { expenses := some [[("id", Val.str "5")]] })] "u" "5"
      { expenses := some [[("id", Val.str "5")]] } [("id", Val.str "5")]
      (by decide) (by decide)).2.1 (by decide)

/-! ## Claim C3 -/

/-- C3: when the user document exists and no element of the stored list
carries the target identifier, each update operation (updateIncome,
updateExpense, updateUserGoal) succeeds without error and the list
retrieved afterwards equals the list retrieved before, for every retrieval
argument. -/
theorem C3_update_missing_id_noop (st : Store) (u tid : String) (d : UserDoc)
    (patch : Obj) (hd : lookupStore st u = some d)
    (hi : ∀ x ∈ d.income.getD [], idMatches x tid = false)
    (he : ∀ x ∈ d.expenses.getD [], idMatches x tid = false)
    (hg : ∀ x ∈ d.goals.getD [], idMatches x tid = false) :
    (∃ st2, updateIncome noErr st u tid patch = Except.ok st2 ∧
      ∀ num, getIncome noErr st2 u num = getIncome noErr st u num) ∧
    (∃ st2, updateExpense noErr st u tid patch = Except.ok st2 ∧
      ∀ num cat, getExpenses noErr st2 u num cat = getExpenses noErr st u num cat) ∧
    (∃ st2, updateUserGoal noErr st u tid patch = Except.ok st2 ∧
      ∀ num, getUserGoals noErr st2 u num = getUserGoals noErr st u num) := by
  refine ⟨⟨storeSet st u (d.setList ListField.income (d.income.getD [])), ?_, ?_⟩,
    ⟨storeSet st u (d.setList ListField.expenses (d.expenses.getD [])), ?_, ?_⟩,
    ⟨storeSet st u (d.setList ListField.goals (d.goals.getD [])), ?_, ?_⟩⟩
  · simp [updateIncome, catchRethrow, fsGetDoc, fsUpdateList, noErr, hd,
      map_update_no_match _ _ _ hi, Bind.bind, Except.bind]
  · intro num
    cases hinc : d.income with
    | none =>
        simp [getIncome, catchRethrow, fsGetDoc, noErr, hd, hinc,
          lookupStore_storeSet_same, UserDoc.setList, Bind.bind, Except.bind,
          Pure.pure, Except.pure]
    | some l =>
        simp [getIncome, catchRethrow, fsGetDoc, noErr, hd, hinc,
          lookupStore_storeSet_same, UserDoc.setList, Bind.bind, Except.bind,
          Pure.pure, Except.pure]
  · simp [updateExpense, catchRethrow, fsGetDoc, fsUpdateList, noErr, hd,
      map_update_no_match _ _ _ he, Bind.bind, Except.bind]
  · intro num cat
    cases hexp : d.expenses with
    | none =>
        simp [getExpenses, catchRethrow, fsGetDoc, noErr, hd, hexp,
          lookupStore_storeSet_same, UserDoc.setList, Bind.bind, Except.bind,
          Pure.pure, Except.pure]
    | some l =>
        simp [getExpenses, catchRethrow, fsGetDoc, noErr, hd, hexp,
          lookupStore_storeSet_same, UserDoc.setList, Bind.bind, Except.bind,
          Pure.pure, Except.pure]
  · simp [updateUserGoal, catchRethrow, fsGetDoc, fsUpdateList, noErr, hd,
      map_update_no_match _ _ _ hg, Bind.bind, Except.bind]
  · intro num
    cases hgl : d.goals with
    | none =>
        simp [getUserGoals, catchRethrow, fsGetDoc, noErr, hd, hgl,
          lookupStore_storeSet_same, UserDoc.setList, Bind.bind, Except.bind,
          Pure.pure, Except.pure]
    | some l =>
        simp [getUserGoals, catchRethrow, fsGetDoc, noErr, hd, hgl,
          lookupStore_storeSet_same, UserDoc.setList, Bind.bind, Except.bind,
          Pure.pure, Except.pure]

/-- Witness for C3 at a concrete store: updating id "9", absent from the
stored income list, is a retrieval-level no-op. -/
theorem C3_update_missing_id_noop_witness :
    ∃ st2,
      updateIncome noErr [("u", { income := some [[("id", Val.str "1")]] })]
          "u" "9" [("amount", Val.num 3)] = Except.ok st2 ∧
      getIncome noErr st2 "u" NumArg.all =
        getIncome noErr [("u", { income := some [[("id", Val.str "1")]] })]
          "u" NumArg.all := by
  obtain ⟨st2, h1, h2⟩ :=
    (C3_update_missing_id_noop
      [("u", { income := some [[("id", Val.str "1")]] })] "u" "9"
      { income := some [[("id", Val.str "1")]] } [("amount", Val.num 3)]
      (by decide) (by decide) (by decide) (by decide)).1
  exact ⟨st2, h1, h2 NumArg.all⟩

/-! ## Claim C4 -/

/-- C4: for an existing user document, adding a record (addIncome,
addExpenses, addUserGoal) and immediately retrieving with limit "all"
returns a present list containing the stored element; that element carries
every caller-supplied field unchanged (apart from the generated fields) and
a generated identifier equal to `Nat.repr now`, a non-empty string. -/
theorem C4_add_then_get (st : Store) (u : String) (d : UserDoc) (r : Obj)
    (now : Nat) (hd : lookupStore st u = some d) :
    (∃ st2 l, addIncome noErr st u r now = Except.ok st2 ∧
      getIncome noErr st2 u NumArg.all = Except.ok (some l) ∧
      extendIncome r now ∈ l ∧
      getField (extendIncome r now) "id" = some (Val.str (Nat.repr now)) ∧
      Nat.repr now ≠ "" ∧
      (∀ k, k ≠ "id" → k ≠ "active" →
        getField (extendIncome r now) k = getField r k)) ∧
    (∃ st2 l, addExpenses noErr st u r now = Except.ok st2 ∧
      getExpenses noErr st2 u NumArg.all "" = Except.ok (some l) ∧
      extendExpense r now ∈ l ∧
      getField (extendExpense r now) "id" = some (Val.str (Nat.repr now)) ∧
      Nat.repr now ≠ "" ∧
      (∀ k, k ≠ "id" → getField (extendExpense r now) k = getField r k)) ∧
    (∃ st2 l, addUserGoal noErr st u r now = Except.ok st2 ∧
      getUserGoals noErr st2 u NumArg.all = Except.ok (some l) ∧
      extendGoal r now ∈ l ∧
      getField (extendGoal r now) "id" = some (Val.str (Nat.repr now)) ∧
      Nat.repr now ≠ "" ∧
      (∀ k, k ≠ "id" → getField (extendGoal r now) k = getField r k)) := by
  refine ⟨?_, ?_, ?_⟩
  · refine ⟨storeSet st u (d.setList ListField.income
        (arrayUnion ((d.getList ListField.income).getD []) (extendIncome r now))),
      arrayUnion ((d.getList ListField.income).getD []) (extendIncome r now),
      ?_, ?_, mem_arrayUnion _ _, ?_, natRepr_ne_empty now, ?_⟩
    · simp [addIncome, catchRethrow, fsSetMergeList, noErr, hd]
    · have hne : arrayUnion ((d.getList ListField.income).getD [])
          (extendIncome r now) ≠ [] :=
        List.ne_nil_of_mem (mem_arrayUnion _ _)
      simp [getIncome, catchRethrow, fsGetDoc, noErr, lookupStore_storeSet_same,
        UserDoc.setList, sliceNum, hne, Bind.bind, Except.bind, Pure.pure,
        Except.pure, List.length_eq_zero]
    · rw [extendIncome, getField_setField_ne _ _ _ _ (by decide),
        getField_setField_same]
    · intro k hk1 hk2
      rw [extendIncome, getField_setField_ne _ _ _ _ hk2,
        getField_setField_ne _ _ _ _ hk1]
  · refine ⟨storeSet st u (d.setList ListField.expenses
        (arrayUnion ((d.getList ListField.expenses).getD []) (extendExpense r now))),
      arrayUnion ((d.getList ListField.expenses).getD []) (extendExpense r now),
      ?_, ?_, mem_arrayUnion _ _, ?_, natRepr_ne_empty now, ?_⟩
    · simp [addExpenses, catchRethrow, fsSetMergeList, noErr, hd]
    · simp [getExpenses, catchRethrow, fsGetDoc, noErr, lookupStore_storeSet_same,
        UserDoc.setList, sliceNum, Bind.bind, Except.bind, Pure.pure, Except.pure]
    · rw [extendExpense, getField_setField_same]
    · intro k hk1
      rw [extendExpense, getField_setField_ne _ _ _ _ hk1]
  · refine ⟨storeSet st u (d.setList ListField.goals
        (arrayUnion ((d.getList ListField.goals).getD []) (extendGoal r now))),
      arrayUnion ((d.getList ListField.goals).getD []) (extendGoal r now),
      ?_, ?_, mem_arrayUnion _ _, ?_, natRepr_ne_empty now, ?_⟩
    · simp [addUserGoal, catchRethrow, fsSetMergeList, noErr, hd]
    · simp [getUserGoals, catchRethrow, fsGetDoc, noErr, lookupStore_storeSet_same,
        UserDoc.setList, sliceNum, Bind.bind, Except.bind, Pure.pure, Except.pure]
    · rw [extendGoal, getField_setField_same]
    · intro k hk1
      rw [extendGoal, getField_setField_ne _ _ _ _ hk1]

/-- Witness for C4 at a concrete store: adding an expense at wall-clock
time 7 and retrieving "all" yields a list containing the stored element
with identifier "7". -/
theorem C4_add_then_get_witness :
    ∃ st2 l,
      addExpenses noErr [("u", emptyDoc)] "u" [("name", Val.str "Coffee")] 7 =
        Except.ok st2 ∧
      getExpenses noErr st2 "u" NumArg.all "" = Except.ok (some l) ∧
      extendExpense [("name", Val.str "Coffee")] 7 ∈ l ∧
      getField (extendExpense [("name", Val.str "Coffee")] 7) "id" =
        some (Val.str (Nat.repr 7)) ∧
      Nat.repr 7 ≠ "" ∧
      getField (extendExpense [("name", Val.str "Coffee")] 7) "name" =
        getField [("name", Val.str "Coffee")] "name" := by
  obtain ⟨st2, l, h1, h2, h3, h4, h5, h6⟩ :=
    (C4_add_then_get [("u", emptyDoc)] "u" emptyDoc
      [("name", Val.str "Coffee")] 7 (by decide)).2.1
  exact ⟨st2, l, h1, h2, h3, h4, h5, h6 "name" (by decide)⟩

/-! ## Claims C5 and C6 -/

/-- C5: whenever the submitted password violates the policy (shorter than
8, or no uppercase letter, or no digit), `handleRegister` rejects locally:
the auth service signup is never called, no profile record is created, the
store is untouched, and the only observable effect is an open error
notification. -/
theorem C5_invalid_password_rejected_locally (b : Backend) (st : Store)
    (password confirm : String) (sr : Except Err Cred)
    (h : password.length < 8 ∨ hasUpper password = false ∨
      hasDigit password = false) :
    (handleRegister b st password confirm sr).signupCalled = false ∧
    (handleRegister b st password confirm sr).createUserCalls = [] ∧
    (handleRegister b st password confirm sr).store = st ∧
    (handleRegister b st password confirm sr).notice.isOpen = true ∧
    (handleRegister b st password confirm sr).notice.severity =
      Severity.error := by
  have hv : passwordPolicyViolated password = true := by
    rcases h with h | h | h <;> simp [passwordPolicyViolated, h]
  simp [handleRegister, hv]

/-- Witness for C5: the password "abc" (too short) is rejected locally. -/
theorem C5_invalid_password_rejected_locally_witness :
    (handleRegister noErr [] "abc" "abc" (Except.ok ⟨"u1", "a@b.com"⟩)).signupCalled = false ∧
    (handleRegister noErr [] "abc" "abc" (Except.ok ⟨"u1", "a@b.com"⟩)).createUserCalls = [] ∧
    (handleRegister noErr [] "abc" "abc" (Except.ok ⟨"u1", "a@b.com"⟩)).store = [] ∧
    (handleRegister noErr [] "abc" "abc" (Except.ok ⟨"u1", "a@b.com"⟩)).notice.isOpen = true ∧
    (handleRegister noErr [] "abc" "abc" (Except.ok ⟨"u1", "a@b.com"⟩)).notice.severity =
      Severity.error :=
  C5_invalid_password_rejected_locally noErr [] "abc" "abc"
    (Except.ok ⟨"u1", "a@b.com"⟩) (Or.inl (by decide))

/-- C6: when the password satisfies the policy, the confirmation matches,
the auth service accepts the signup, and the store write succeeds,
registration succeeds: exactly one `createUser` call is made, writing
exactly one user document keyed by the new user's identifier, the success
notification is shown and the user is sent to the dashboard. -/
theorem C6_valid_registration_creates_one_profile (st : Store)
    (password confirm : String) (cred : Cred)
    (h1 : ¬ password.length < 8) (h2 : hasUpper password = true)
    (h3 : hasDigit password = true) (h4 : password = confirm) :
    (handleRegister noErr st password confirm (Except.ok cred)).signupCalled = true ∧
    (handleRegister noErr st password confirm (Except.ok cred)).createUserCalls =
      [(cred.uid, cred.email)] ∧
    (handleRegister noErr st password confirm (Except.ok cred)).createUserCalls.length = 1 ∧
    (handleRegister noErr st password confirm (Except.ok cred)).store =
      storeSet st cred.uid { email := some (Val.str cred.email), createdSet := true } ∧
    lookupStore (handleRegister noErr st password confirm (Except.ok cred)).store cred.uid =
      some { email := some (Val.str cred.email), createdSet := true } ∧
    (handleRegister noErr st password confirm (Except.ok cred)).notice.severity =
      Severity.success ∧
    (handleRegister noErr st password confirm (Except.ok cred)).navigatedToDashboard =
      true := by
  subst h4
  have hv : passwordPolicyViolated password = false := by
    simp [passwordPolicyViolated, h1, h2, h3]
  simp [handleRegister, hv, createUser, catchRethrow, fsSetReplace, noErr,
    lookupStore_storeSet_same]

/-- Witness for C6: registering with password "Abcdef12" (valid, matching
confirmation) against an empty store creates exactly the one profile
document keyed by the new uid. -/
theorem C6_valid_registration_creates_one_profile_witness :
    (handleRegister noErr [] "Abcdef12" "Abcdef12"
      (Except.ok ⟨"u1", "a@b.com"⟩)).signupCalled = true ∧
    (handleRegister noErr [] "Abcdef12" "Abcdef12"
      (Except.ok ⟨"u1", "a@b.com"⟩)).createUserCalls = [("u1", "a@b.com")] ∧
    (handleRegister noErr [] "Abcdef12" "Abcdef12"
      (Except.ok ⟨"u1", "a@b.com"⟩)).createUserCalls.length = 1 ∧
    (handleRegister noErr [] "Abcdef12" "Abcdef12"
      (Except.ok ⟨"u1", "a@b.com"⟩)).store =
      storeSet [] "u1" { email := some (Val.str "a@b.com"), createdSet := true } ∧
    lookupStore (handleRegister noErr [] "Abcdef12" "Abcdef12"
      (Except.ok ⟨"u1", "a@b.com"⟩)).store "u1" =
      some { email := some (Val.str "a@b.com"), createdSet := true } ∧
    (handleRegister noErr [] "Abcdef12" "Abcdef12"
      (Except.ok ⟨"u1", "a@b.com"⟩)).notice.severity = Severity.success ∧
    (handleRegister noErr [] "Abcdef12" "Abcdef12"
      (Except.ok ⟨"u1", "a@b.com"⟩)).navigatedToDashboard = true :=
  C6_valid_registration_creates_one_profile [] "Abcdef12" "Abcdef12"
    ⟨"u1", "a@b.com"⟩ (by decide) (by decide) (by decide) (by decide)

/-! ## Claim C10 -/

/-- C10: with an existing user document and a non-empty category argument,
`getExpenses` filters the stored expense list before any numeric slicing:
the result is exactly the case-insensitive category matches, sliced.
Entries without a category field never match, an entry with a string
category matches exactly when the lower-cased categories are equal, and a
numeric limit takes the first `n` elements of the filtered list. -/
theorem C10_category_filter_before_slice (st : Store) (u cat : String)
    (d : UserDoc) (num : NumArg) (hd : lookupStore st u = some d)
    (hc : cat ≠ "") :
    getExpenses noErr st u num cat =
      Except.ok (some (sliceNum
        ((d.expenses.getD []).filter (fun e => categoryTest e cat)) num)) ∧
    (∀ e : Obj, getField e "category" = none → categoryTest e cat = false) ∧
    (∀ (e : Obj) (c : String), getField e "category" = some (Val.str c) →
      c ≠ "" → (categoryTest e cat = true ↔ c.toLower = cat.toLower)) ∧
    (∀ (arr : List Obj) (n : Nat), sliceNum arr (NumArg.count n) = arr.take n) := by
  refine ⟨?_, ?_, ?_, fun arr n => rfl⟩
  · have hcb : (cat == "") = false := by simp [hc]
    simp [getExpenses, catchRethrow, fsGetDoc, noErr, hd, hcb, Bind.bind,
      Except.bind, Pure.pure, Except.pure]
  · intro e h
    simp [categoryTest, h]
  · intro e c h hne
    simp [categoryTest, h, hne]

/-- Witness for C10: a store with four expenses (categories "Dining",
absent, "dining", "gas"); querying category "DINING" with limit 1 returns
the first case-insensitive match only. -/
theorem C10_category_filter_before_slice_witness :
    getExpenses noErr
      [("u", { expenses := some [
        [("id", Val.str "1"), ("category", Val.str "Dining")],
        [("id", Val.str "2")],
        [("id", Val.str "3"), ("category", Val.str "dining")],
        [("id", Val.str "4"), ("category", Val.str "gas")]] })]
      "u" (NumArg.count 1) "DINING" =
      Except.ok (some (sliceNum
        (([[("id", Val.str "1"), ("category", Val.str "Dining")],
          [("id", Val.str "2")],
          [("id", Val.str "3"), ("category", Val.str "dining")],
          [("id", Val.str "4"), ("category", Val.str "gas")]] : List Obj).filter
          (fun e => categoryTest e "DINING")) (NumArg.count 1))) :=
  (C10_category_filter_before_slice
    [("u", { expenses := some [
      [("id", Val.str "1"), ("category", Val.str "Dining")],
      [("id", Val.str "2")],
      [("id", Val.str "3"), ("category", Val.str "dining")],
      [("id", Val.str "4"), ("category", Val.str "gas")]] })]
    "u" "DINING"
    { expenses := some [
      [("id", Val.str "1"), ("category", Val.str "Dining")],
      [("id", Val.str "2")],
      [("id", Val.str "3"), ("category", Val.str "dining")],
      [("id", Val.str "4"), ("category", Val.str "gas")]] }
    (NumArg.count 1) (by decide) (by decide)).1

/-! ## Claim C9 -/

/-- C9: the stored income entry is the caller's record extended with the
generated identifier and an `active = true` field the caller did not
supply; the expense and goal add operations extend the record with the
identifier only, leaving any `active` field exactly as the caller had it.
All other caller-supplied fields are unchanged by the extension, and the
extended income record is what addIncome stores. -/
theorem C9_add_sets_id_and_active (st : Store) (u : String) (r : Obj)
    (now : Nat) (hactive : getField r "active" = none) :
    (∃ st2, addIncome noErr st u r now = Except.ok st2 ∧
      extendIncome r now ∈ ((lookupStore st2 u).getD emptyDoc).income.getD []) ∧
    getField (extendIncome r now) "id" = some (Val.str (Nat.repr now)) ∧
    getField (extendIncome r now) "active" = some (Val.bool true) ∧
    getField r "active" = none ∧
    (∀ k, k ≠ "id" → k ≠ "active" →
      getField (extendIncome r now) k = getField r k) ∧
    getField (extendExpense r now) "id" = some (Val.str (Nat.repr now)) ∧
    getField (extendExpense r now) "active" = getField r "active" ∧
    (∀ k, k ≠ "id" → getField (extendExpense r now) k = getField r k) ∧
    getField (extendGoal r now) "id" = some (Val.str (Nat.repr now)) ∧
    getField (extendGoal r now) "active" = getField r "active" ∧
    (∀ k, k ≠ "id" → getField (extendGoal r now) k = getField r k) := by
  refine ⟨?_, ?_, ?_, hactive, ?_, ?_, ?_, ?_, ?_, ?_, ?_⟩
  · refine ⟨storeSet st u (((lookupStore st u).getD emptyDoc).setList
        ListField.income (arrayUnion
          ((((lookupStore st u).getD emptyDoc).getList ListField.income).getD [])
          (extendIncome r now))), ?_, ?_⟩
    · simp [addIncome, catchRethrow, fsSetMergeList, noErr]
    · simp only [lookupStore_storeSet_same, Option.getD_some, UserDoc.setList]
      simpa using mem_arrayUnion _ _
  · rw [extendIncome, getField_setField_ne _ _ _ _ (by decide),
      getField_setField_same]
  · rw [extendIncome, getField_setField_same]
  · intro k hk1 hk2
    rw [extendIncome, getField_setField_ne _ _ _ _ hk2,
      getField_setField_ne _ _ _ _ hk1]
  · rw [extendExpense, getField_setField_same]
  · rw [extendExpense, getField_setField_ne _ _ _ _ (by decide)]
  · intro k hk1
    rw [extendExpense, getField_setField_ne _ _ _ _ hk1]
  · rw [extendGoal, getField_setField_same]
  · rw [extendGoal, getField_setField_ne _ _ _ _ (by decide)]
  · intro k hk1
    rw [extendGoal, getField_setField_ne _ _ _ _ hk1]

/-- Witness for C9 at a concrete record without an `active` field,
added at wall-clock time 7. -/
theorem C9_add_sets_id_and_active_witness :
    (∃ st2, addIncome noErr [] "u" [("name", Val.str "job")] 7 = Except.ok st2 ∧
      extendIncome [("name", Val.str "job")] 7 ∈
        ((lookupStore st2 "u").getD emptyDoc).income.getD []) ∧
    getField (extendIncome [("name", Val.str "job")] 7) "id" =
      some (Val.str (Nat.repr 7)) ∧
    getField (extendIncome [("name", Val.str "job")] 7) "active" =
      some (Val.bool true) ∧
    getField (extendExpense [("name", Val.str "job")] 7) "active" =
      getField [("name", Val.str "job")] "active" ∧
    getField (extendGoal [("name", Val.str "job")] 7) "active" =
      getField [("name", Val.str "job")] "active" := by
  obtain ⟨hmem, hid, hact, hnone, hpres, hxid, hxact, hxpres, hgid, hgact, hgpres⟩ :=
    C9_add_sets_id_and_active [] "u" [("name", Val.str "job")] 7 (by decide)
  exact ⟨hmem, hid, hact, hxact, hgact⟩

/-! ## Claim C7 -/

/-- C7: with an existing user document and an identifier present in the
stored expense list, `updateExpense` writes back exactly the element-wise
image of the list in which each matching element is replaced by the
spread-merge of the patch over it: non-matching elements and positions are
untouched, length and order are preserved, every other field of the user
document is unchanged, and every other user's document is unchanged.
`deleteExpense` writes back exactly the order-preserving filter dropping
the matching elements.  The income and goal operations perform the same
read-map-write and read-filter-write on their lists. -/
theorem C7_update_delete_frame (st : Store) (u tid : String) (d : UserDoc)
    (patch : Obj) (hd : lookupStore st u = some d)
    (hpresent : ∃ x ∈ d.expenses.getD [], idMatches x tid = true) :
    (∃ st2, updateExpense noErr st u tid patch = Except.ok st2 ∧
      lookupStore st2 u = some (d.setList ListField.expenses
        ((d.expenses.getD []).map (fun x =>
          if idMatches x tid then mergeObj x patch else x))) ∧
      (∀ v, v ≠ u → lookupStore st2 v = lookupStore st v)) ∧
    ((d.expenses.getD []).map (fun x =>
        if idMatches x tid then mergeObj x patch else x)).length =
      (d.expenses.getD []).length ∧
    (∀ (j : Nat) (x : Obj), (d.expenses.getD [])[j]? = some x →
      idMatches x tid = false →
      ((d.expenses.getD []).map (fun x =>
        if idMatches x tid then mergeObj x patch else x))[j]? = some x) ∧
    (∀ (j : Nat) (x : Obj), (d.expenses.getD [])[j]? = some x →
      idMatches x tid = true →
      ((d.expenses.getD []).map (fun x =>
        if idMatches x tid then mergeObj x patch else x))[j]? =
        some (mergeObj x patch)) ∧
    (∀ l : List Obj, (d.setList ListField.expenses l).email = d.email ∧
      (d.setList ListField.expenses l).createdSet = d.createdSet ∧
      (d.setList ListField.expenses l).profile = d.profile ∧
      (d.setList ListField.expenses l).income = d.income ∧
      (d.setList ListField.expenses l).goals = d.goals) ∧
    (∃ st3, deleteExpense noErr st u tid = Except.ok st3 ∧
      lookupStore st3 u = some (d.setList ListField.expenses
        ((d.expenses.getD []).filter (fun x => !(idMatches x tid)))) ∧
      (∀ v, v ≠ u → lookupStore st3 v = lookupStore st v)) ∧
    (∃ st2, updateIncome noErr st u tid patch = Except.ok st2 ∧
      lookupStore st2 u = some (d.setList ListField.income
        ((d.income.getD []).map (fun x =>
          if idMatches x tid then mergeObj x patch else x)))) ∧
    (∃ st3, deleteIncome noErr st u tid = Except.ok st3 ∧
      lookupStore st3 u = some (d.setList ListField.income
        ((d.income.getD []).filter (fun x => !(idMatches x tid))))) ∧
    (∃ st2, updateUserGoal noErr st u tid patch = Except.ok st2 ∧
      lookupStore st2 u = some (d.setList ListField.goals
        ((d.goals.getD []).map (fun x =>
          if idMatches x tid then mergeObj x patch else x)))) ∧
    (∃ st3, deleteUserGoal noErr st u tid = Except.ok st3 ∧
      lookupStore st3 u = some (d.setList ListField.goals
        ((d.goals.getD []).filter (fun x => !(idMatches x tid))))) := by
  refine ⟨⟨storeSet st u (d.setList ListField.expenses
      ((d.expenses.getD []).map (fun x =>
        if idMatches x tid then mergeObj x patch else x))), ?_, ?_, ?_⟩,
    List.length_map _ _, ?_, ?_, fun l => by cases d; simp [UserDoc.setList],
    ⟨storeSet st u (d.setList ListField.expenses
      ((d.expenses.getD []).filter (fun x => !(idMatches x tid)))), ?_, ?_, ?_⟩,
    ⟨storeSet st u (d.setList ListField.income
      ((d.income.getD []).map (fun x =>
        if idMatches x tid then mergeObj x patch else x))), ?_, ?_⟩,
    ⟨storeSet st u (d.setList ListField.income
      ((d.income.getD []).filter (fun x => !(idMatches x tid)))), ?_, ?_⟩,
    ⟨storeSet st u (d.setList ListField.goals
      ((d.goals.getD []).map (fun x =>
        if idMatches x tid then mergeObj x patch else x))), ?_, ?_⟩,
    ⟨storeSet st u (d.setList ListField.goals
      ((d.goals.getD []).filter (fun x => !(idMatches x tid)))), ?_, ?_⟩⟩
  · simp [updateExpense, catchRethrow, fsGetDoc, fsUpdateList, noErr, hd,
      Bind.bind, Except.bind]
  · exact lookupStore_storeSet_same st u _
  · exact fun v hv => lookupStore_storeSet_ne st u v _ hv
  · intro j x hj hx
    simp [List.getElem?_map, hj, hx]
  · intro j x hj hx
    simp [List.getElem?_map, hj, hx]
  · simp [deleteExpense, catchRethrow, fsGetDoc, fsUpdateList, noErr, hd,
      Bind.bind, Except.bind]
  · exact lookupStore_storeSet_same st u _
  · exact fun v hv => lookupStore_storeSet_ne st u v _ hv
  · simp [updateIncome, catchRethrow, fsGetDoc, fsUpdateList, noErr, hd,
      Bind.bind, Except.bind]
  · exact lookupStore_storeSet_same st u _
  · simp [deleteIncome, catchRethrow, fsGetDoc, fsUpdateList, noErr, hd,
      Bind.bind, Except.bind]
  · exact lookupStore_storeSet_same st u _
  · simp [updateUserGoal, catchRethrow, fsGetDoc, fsUpdateList, noErr, hd,
      Bind.bind, Except.bind]
  · exact lookupStore_storeSet_same st u _
  · simp [deleteUserGoal, catchRethrow, fsGetDoc, fsUpdateList, noErr, hd,
      Bind.bind, Except.bind]
  · exact lookupStore_storeSet_same st u _

/-- Witness for C7 at a two-user store whose expense list holds a matching
and a non-matching element: the update rewrites exactly the matching one
and the other user's document is untouched. -/
theorem C7_update_delete_frame_witness :
    ∃ st2,
      updateExpense noErr
        [("u", { expenses := some [[("id", Val.str "1"), ("amount", Val.num 4)],
                                   [("id", Val.str "2")]] }),
         ("v", emptyDoc)] "u" "1" [("amount", Val.num 5)] = Except.ok st2 ∧
      lookupStore st2 "u" = some
        ({ expenses := some [[("id", Val.str "1"), ("amount", Val.num 4)],
                             [("id", Val.str "2")]] : UserDoc}.setList
          ListField.expenses
          ((([[("id", Val.str "1"), ("amount", Val.num 4)],
              [("id", Val.str "2")]] : List Obj)).map (fun x =>
            if idMatches x "1" then mergeObj x [("amount", Val.num 5)] else x))) ∧
      lookupStore st2 "v" = lookupStore
        [("u", { expenses := some [[("id", Val.str "1"), ("amount", Val.num 4)],
                                   [("id", Val.str "2")]] }),
         ("v", emptyDoc)] "v" := by
  obtain ⟨⟨st2, h1, h2, h3⟩, _⟩ :=
    C7_update_delete_frame
      [("u", { expenses := some [[("id", Val.str "1"), ("amount", Val.num 4)],
                                 [("id", Val.str "2")]] }),
       ("v", emptyDoc)] "u" "1"
      { expenses := some [[("id", Val.str "1"), ("amount", Val.num 4)],
                          [("id", Val.str "2")]] }
      [("amount", Val.num 5)] (by decide)
      ⟨[("id", Val.str "1"), ("amount", Val.num 4)], by decide⟩
  exact ⟨st2, h1, h2, h3 "v" (by decide)⟩

/-! ## Claim C8 -/

/-- Whether an embedded data-access call finished without raising. -/
def isOk {α : Type} : Except Err α → Bool
  | Except.ok _ => true
  | Except.error _ => false

/-- C8: every data-access function propagates a store-call rejection
unchanged to its caller (the catch logs and re-throws the same error), and
raises no error when no store call raises.  For each function: under a
backend whose relevant primitive rejects with `e` the function returns
exactly `Except.error e` (for update/delete, the write-stage rejection is
observed exactly when the document exists, since otherwise `updateDoc` is
never called), and under a backend that never rejects the function
returns without error. -/
theorem C8_error_propagation (st : Store) (u u2 tid cat : String) (e : Err)
    (r patch : Obj) (p : List (String × Val)) (now : Nat) (num : NumArg) :
    (createUser (setFails e) st u u2 = Except.error e ∧
      isOk (createUser noErr st u u2) = true) ∧
    (updateUser (setFails e) st u p = Except.error e ∧
      isOk (updateUser noErr st u p) = true) ∧
    (getUserData (getFails e) st u = Except.error e ∧
      isOk (getUserData noErr st u) = true) ∧
    (addIncome (setFails e) st u r now = Except.error e ∧
      isOk (addIncome noErr st u r now) = true) ∧
    (addExpenses (setFails e) st u r now = Except.error e ∧
      isOk (addExpenses noErr st u r now) = true) ∧
    (addUserGoal (setFails e) st u r now = Except.error e ∧
      isOk (addUserGoal noErr st u r now) = true) ∧
    (getIncome (getFails e) st u num = Except.error e ∧
      isOk (getIncome noErr st u num) = true) ∧
    (getExpenses (getFails e) st u num cat = Except.error e ∧
      isOk (getExpenses noErr st u num cat) = true) ∧
    (getUserGoals (getFails e) st u num = Except.error e ∧
      isOk (getUserGoals noErr st u num) = true) ∧
    (updateIncome (getFails e) st u tid patch = Except.error e ∧
      updateIncome (updateFails e) st u tid patch =
        (if (lookupStore st u).isSome then Except.error e else Except.ok st) ∧
      isOk (updateIncome noErr st u tid patch) = true) ∧
    (deleteIncome (getFails e) st u tid = Except.error e ∧
      deleteIncome (updateFails e) st u tid =
        (if (lookupStore st u).isSome then Except.error e else Except.ok st) ∧
      isOk (deleteIncome noErr st u tid) = true) ∧
    (updateExpense (getFails e) st u tid patch = Except.error e ∧
      updateExpense (updateFails e) st u tid patch =
        (if (lookupStore st u).isSome then Except.error e else Except.ok st) ∧
      isOk (updateExpense noErr st u tid patch) = true) ∧
    (deleteExpense (getFails e) st u tid = Except.error e ∧
      deleteExpense (updateFails e) st u tid =
        (if (lookupStore st u).isSome then Except.error e else Except.ok st) ∧
      isOk (deleteExpense noErr st u tid) = true) ∧
    (updateUserGoal (getFails e) st u tid patch = Except.error e ∧
      updateUserGoal (updateFails e) st u tid patch =
        (if (lookupStore st u).isSome then Except.error e else Except.ok st) ∧
      isOk (updateUserGoal noErr st u tid patch) = true) ∧
    (deleteUserGoal (getFails e) st u tid = Except.error e ∧
      deleteUserGoal (updateFails e) st u tid =
        (if (lookupStore st u).isSome then Except.error e else Except.ok st) ∧
      isOk (deleteUserGoal noErr st u tid) = true) := by
  refine ⟨⟨rfl, rfl⟩, ⟨rfl, rfl⟩, ⟨rfl, rfl⟩, ⟨rfl, rfl⟩, ⟨rfl, rfl⟩, ⟨rfl, rfl⟩,
    ⟨rfl, ?_⟩, ⟨rfl, ?_⟩, ⟨rfl, ?_⟩, ⟨rfl, ?_, ?_⟩, ⟨rfl, ?_, ?_⟩, ⟨rfl, ?_, ?_⟩,
    ⟨rfl, ?_, ?_⟩, ⟨rfl, ?_, ?_⟩, ⟨rfl, ?_, ?_⟩⟩
  · cases hl : lookupStore st u with
    | none =>
        simp [getIncome, catchRethrow, fsGetDoc, noErr, hl, isOk, Bind.bind,
          Except.bind, Pure.pure, Except.pure]
    | some d =>
        cases hi : d.income with
        | none =>
            simp [getIncome, catchRethrow, fsGetDoc, noErr, hl, hi, isOk,
              Bind.bind, Except.bind, Pure.pure, Except.pure]
        | some arr =>
            by_cases harr : arr = [] <;>
              simp [getIncome, catchRethrow, fsGetDoc, noErr, hl, hi, harr,
                isOk, Bind.bind, Except.bind, Pure.pure, Except.pure]
  · cases hl : lookupStore st u <;>
      simp [getExpenses, catchRethrow, fsGetDoc, noErr, hl, isOk, Bind.bind,
        Except.bind, Pure.pure, Except.pure]
  · cases hl : lookupStore st u <;>
      simp [getUserGoals, catchRethrow, fsGetDoc, noErr, hl, isOk, Bind.bind,
        Except.bind, Pure.pure, Except.pure]
  · cases hl : lookupStore st u <;>
      simp [updateIncome, catchRethrow, fsGetDoc, fsUpdateList, updateFails,
        hl, Bind.bind, Except.bind, Pure.pure, Except.pure]
  · cases hl : lookupStore st u <;>
      simp [updateIncome, catchRethrow, fsGetDoc, fsUpdateList, noErr, hl,
        isOk, Bind.bind, Except.bind, Pure.pure, Except.pure]
  · cases hl : lookupStore st u <;>
      simp [deleteIncome, catchRethrow, fsGetDoc, fsUpdateList, updateFails,
        hl, Bind.bind, Except.bind, Pure.pure, Except.pure]
  · cases hl : lookupStore st u <;>
      simp [deleteIncome, catchRethrow, fsGetDoc, fsUpdateList, noErr, hl,
        isOk, Bind.bind, Except.bind, Pure.pure, Except.pure]
  · cases hl : lookupStore st u <;>
      simp [updateExpense, catchRethrow, fsGetDoc, fsUpdateList, updateFails,
        hl, Bind.bind, Except.bind, Pure.pure, Except.pure]
  · cases hl : lookupStore st u <;>
      simp [updateExpense, catchRethrow, fsGetDoc, fsUpdateList, noErr, hl,
        isOk, Bind.bind, Except.bind, Pure.pure, Except.pure]
  · cases hl : lookupStore st u <;>
      simp [deleteExpense, catchRethrow, fsGetDoc, fsUpdateList, updateFails,
        hl, Bind.bind, Except.bind, Pure.pure, Except.pure]
  · cases hl : lookupStore st u <;>
      simp [deleteExpense, catchRethrow, fsGetDoc, fsUpdateList, noErr, hl,
        isOk, Bind.bind, Except.bind, Pure.pure, Except.pure]
  · cases hl : lookupStore st u <;>
      simp [updateUserGoal, catchRethrow, fsGetDoc, fsUpdateList, updateFails,
        hl, Bind.bind, Except.bind, Pure.pure, Except.pure]
  · cases hl : lookupStore st u <;>
      simp [updateUserGoal, catchRethrow, fsGetDoc, fsUpdateList, noErr, hl,
        isOk, Bind.bind, Except.bind, Pure.pure, Except.pure]
  · cases hl : lookupStore st u <;>
      simp [deleteUserGoal, catchRethrow, fsGetDoc, fsUpdateList, updateFails,
        hl, Bind.bind, Except.bind, Pure.pure, Except.pure]
  · cases hl : lookupStore st u <;>
      simp [deleteUserGoal, catchRethrow, fsGetDoc, fsUpdateList, noErr, hl,
        isOk, Bind.bind, Except.bind, Pure.pure, Except.pure]

/-! ## Claim C2 -/

/-- One add operation: which list it targets, the caller's record, and the
wall-clock time (`Date.now()`) at which it runs. -/
structure AddOp where
  field : ListField
  record : Obj
  now : Nat
deriving DecidableEq, Repr

/-- The element an add operation stores (the record extended with the
generated identifier, and for income also `active = true`). -/
def extendFor (op : AddOp) : Obj :=
  match op.field with
  | ListField.income => extendIncome op.record op.now
  | ListField.expenses => extendExpense op.record op.now
  | ListField.goals => extendGoal op.record op.now

/-- Run one add operation against the store (the backend never rejects). -/
def applyAdd (st : Store) (u : String) (op : AddOp) : Store :=
  match (match op.field with
    | ListField.income => addIncome noErr st u op.record op.now
    | ListField.expenses => addExpenses noErr st u op.record op.now
    | ListField.goals => addUserGoal noErr st u op.record op.now) with
  | Except.ok st2 => st2
  | Except.error _ => st

/-- Run a sequence of add operations in order. -/
def runAdds (st : Store) (u : String) (ops : List AddOp) : Store :=
  ops.foldl (fun s op => applyAdd s u op) st

/-- The stored entity list of one field of the user's document. -/
def entityList (st : Store) (u : String) (f : ListField) : List Obj :=
  (((lookupStore st u).getD emptyDoc).getList f).getD []

/-- The identifiers carried by the elements of one entity list. -/
def idsOf (st : Store) (u : String) (f : ListField) : List (Option Val) :=
  (entityList st u f).map (fun o => getField o "id")

theorem getField_extendFor_id (op : AddOp) :
    getField (extendFor op) "id" = some (Val.str (Nat.repr op.now)) := by
  cases hf : op.field <;>
    simp only [extendFor, hf, extendIncome, extendExpense, extendGoal] <;>
    first
      | rw [getField_setField_ne _ _ _ _ (by decide), getField_setField_same]
      | rw [getField_setField_same]

theorem applyAdd_target (st : Store) (u : String) (op : AddOp) :
    entityList (applyAdd st u op) u op.field =
      arrayUnion (entityList st u op.field) (extendFor op) := by
  cases hf : op.field <;>
    simp [applyAdd, hf, addIncome, addExpenses, addUserGoal, catchRethrow,
      fsSetMergeList, noErr, extendFor, entityList, lookupStore_storeSet_same,
      getList_setList_same]

theorem applyAdd_other (st : Store) (u : String) (op : AddOp) (f : ListField)
    (h : f ≠ op.field) :
    entityList (applyAdd st u op) u f = entityList st u f := by
  cases hf : op.field <;> rw [hf] at h <;>
    simp [applyAdd, hf, addIncome, addExpenses, addUserGoal, catchRethrow,
      fsSetMergeList, noErr, extendFor, entityList, lookupStore_storeSet_same,
      getList_setList_ne _ _ _ _ h]

theorem runAdds_ids_spec (ops : List AddOp) :
    ∀ (st : Store) (u : String) (N : List Nat),
      (∀ f, ∃ ts : List Nat,
        idsOf st u f = ts.map (fun n => some (Val.str (Nat.repr n))) ∧
        ts.Nodup ∧ ∀ n ∈ ts, n ∈ N) →
      (ops.map AddOp.now).Nodup →
      (∀ op ∈ ops, op.now ∉ N) →
      ∀ f, ∃ ts : List Nat,
        idsOf (runAdds st u ops) u f =
          ts.map (fun n => some (Val.str (Nat.repr n))) ∧ ts.Nodup := by
  induction ops with
  | nil =>
      intro st u N hinv _ _ f
      obtain ⟨ts, h1, h2, _⟩ := hinv f
      exact ⟨ts, h1, h2⟩
  | cons op rest ih =>
      intro st u N hinv hnodup hfresh f
      have hstep : runAdds st u (op :: rest) = runAdds (applyAdd st u op) u rest := by
        simp [runAdds]
      rw [hstep]
      have hopfresh : op.now ∉ N := hfresh op (by simp)
      have hinv2 : ∀ f2, ∃ ts : List Nat,
          idsOf (applyAdd st u op) u f2 =
            ts.map (fun n => some (Val.str (Nat.repr n))) ∧
          ts.Nodup ∧ ∀ n ∈ ts, n ∈ op.now :: N := by
        intro f2
        by_cases hf2 : f2 = op.field
        · subst hf2
          obtain ⟨ts, h1, h2, h3⟩ := hinv op.field
          have hnotmem : extendFor op ∉ entityList st u op.field := by
            intro hmem
            have hidmem : getField (extendFor op) "id" ∈ idsOf st u op.field :=
              List.mem_map_of_mem _ hmem
            rw [getField_extendFor_id, h1] at hidmem
            obtain ⟨n, hn, heq⟩ := List.mem_map.1 hidmem
            have : op.now = n := natRepr_injective (by
              have := heq.symm
              simpa using this)
            exact hopfresh (this ▸ h3 n hn)
          refine ⟨ts ++ [op.now], ?_, ?_, ?_⟩
          · rw [idsOf, applyAdd_target, arrayUnion_of_not_mem _ _ hnotmem,
              List.map_append]
            simp only [List.map_cons, List.map_nil, getField_extendFor_id]
            rw [idsOf] at h1
            rw [h1, List.map_append]
            simp
          · simp only [List.nodup_append, List.nodup_cons, List.not_mem_nil,
              not_false_iff, List.nodup_nil, and_true, true_and]
            refine ⟨h2, ?_⟩
            intro n hn
            simp only [List.mem_singleton]
            intro heq
            exact hopfresh (heq ▸ h3 n hn)
          · intro n hn
            rcases List.mem_append.1 hn with hn | hn
            · exact List.mem_cons_of_mem _ (h3 n hn)
            · simp only [List.mem_singleton] at hn
              simp [hn]
        · obtain ⟨ts, h1, h2, h3⟩ := hinv f2
          refine ⟨ts, ?_, h2, fun n hn => List.mem_cons_of_mem _ (h3 n hn)⟩
          rw [idsOf, applyAdd_other st u op f2 hf2]
          exact h1
      have hrest_nodup : (rest.map AddOp.now).Nodup :=
        (List.nodup_cons.1 (by simpa using hnodup)).2
      have hhead : op.now ∉ rest.map AddOp.now :=
        (List.nodup_cons.1 (by simpa using hnodup)).1
      have hrest_fresh : ∀ op2 ∈ rest, op2.now ∉ op.now :: N := by
        intro op2 hop2
        simp only [List.mem_cons, not_or]
        constructor
        · intro heq
          exact hhead (heq ▸ List.mem_map_of_mem AddOp.now hop2)
        · exact hfresh op2 (List.mem_cons_of_mem _ hop2)
      exact ih (applyAdd st u op) u (op.now :: N) hinv2 hrest_nodup hrest_fresh f

/-- C2 counterexample: the claim fails as stated.  Two `addIncome` calls in
the same wall-clock millisecond (time 7) with different records append two
elements that both carry identifier "7": the resulting identifier list is
`[some "7", some "7"]`, which has a duplicate. -/
theorem C2_counterexample :
    idsOf (runAdds [] "u"
        [⟨ListField.income, [("name", Val.str "a")], 7⟩,
         ⟨ListField.income, [("name", Val.str "b")], 7⟩]) "u" ListField.income =
      [some (Val.str "7"), some (Val.str "7")] ∧
    ¬ (idsOf (runAdds [] "u"
        [⟨ListField.income, [("name", Val.str "a")], 7⟩,
         ⟨ListField.income, [("name", Val.str "b")], 7⟩]) "u"
        ListField.income).Nodup := by
  constructor
  · rfl
  · decide

/-- C2 (amended): starting from a store without a document for the user,
after any sequence of add operations whose wall-clock timestamps are
pairwise distinct, the element identifiers within each entity list are
pairwise distinct.  (The unamended claim, quantifying over all sequences
including same-millisecond adds, is refuted by the counterexample.) -/
theorem C2_amended_ids_unique (ops : List AddOp) (u : String)
    (hdist : (ops.map AddOp.now).Nodup) (f : ListField) :
    (idsOf (runAdds [] u ops) u f).Nodup := by
  have hinv : ∀ f2, ∃ ts : List Nat,
      idsOf ([] : Store) u f2 = ts.map (fun n => some (Val.str (Nat.repr n))) ∧
      ts.Nodup ∧ ∀ n ∈ ts, n ∈ ([] : List Nat) := by
    intro f2
    refine ⟨[], ?_, List.nodup_nil, by simp⟩
    cases f2 <;> simp [idsOf, entityList, lookupStore, emptyDoc, UserDoc.getList]
  obtain ⟨ts, h1, h2⟩ := runAdds_ids_spec ops [] u [] hinv hdist (by simp) f
  rw [h1]
  refine List.Nodup.map ?_ h2
  intro a b hab
  simp only [Option.some.injEq, Val.str.injEq] at hab
  exact natRepr_injective hab

/-- Witness for C2 (amended): two income adds at distinct times 7 and 8
give distinct identifiers. -/
theorem C2_amended_ids_unique_witness :
    (idsOf (runAdds [] "u"
        [⟨ListField.income, [("name", Val.str "a")], 7⟩,
         ⟨ListField.income, [("name", Val.str "b")], 8⟩]) "u"
        ListField.income).Nodup :=
  C2_amended_ids_unique
    [⟨ListField.income, [("name", Val.str "a")], 7⟩,
     ⟨ListField.income, [("name", Val.str "b")], 8⟩] "u" (by decide)
    ListField.income

end Centsible
